import Mathlib

/-!
Shallow embedding of `src/codegen/src/types.rs`: the code-generator IR
entity model (`Node`, `Struct`, `Enum`, `Variant`, `Field`, `Type`) with
its feature-gate merge algorithm `Features::join`, and the serde-derived
serialization shape dictated by the attributes in that file.

Rust `Vec<String>` becomes `List String`; a `&mut self` method becomes a
function returning the receiver's new value; a failed `assert!` or an
out-of-range index (a fatal panic in Rust) becomes `none` of an `Option`
result.
-/

namespace Codegen

/-- Rust struct `Features { any: Vec<String> }` (types.rs line 77-80): an
ordered sequence of feature-flag names. -/
structure Features where
  any : List String
  deriving DecidableEq

/-- Rust `Features::new(any)` (types.rs line 179): wraps the given sequence
verbatim. -/
def Features.new (flags : List String) : Features :=
  ⟨flags⟩

/-- Rust `Features::len` (types.rs line 195). -/
def Features.len (self : Features) : Nat :=
  self.any.length

/-- Rust `Features::contains` (types.rs line 199): linear scan
`self.iter().any(|s| s == tag)`. -/
def Features.contains (self : Features) (tag : String) : Bool :=
  self.any.any (fun s => s == tag)

/-- Rust `Features::join(&mut self, other)` (types.rs lines 183-193).
The result is the receiver's value after the call; `none` models a failed
`assert!`, which aborts the process. The three branches mirror the source:
empty receiver adopts `other`; a strictly shorter receiver is checked to be
contained in `other` and then KEEPS its own flags; otherwise `other` is
checked to be contained in the receiver and the receiver adopts `other`. -/
def Features.join (self other : Features) : Option Features :=
  if self.any.isEmpty then
    some ⟨other.any⟩
  else if self.any.length < other.any.length then
    if self.any.all (fun f => other.any.contains f) then some self else none
  else
    if other.any.all (fun f => self.any.contains f) then some ⟨other.any⟩
    else none

/-- Rust `impl ops::Index<usize> for Features` (types.rs lines 208-214):
position access into `any`; `none` models the out-of-range panic of
`Vec::index`. -/
def Features.index (self : Features) (i : Nat) : Option String :=
  self.any.get? i

/-- Rust enum `Type` (types.rs lines 44-69); `Type` is reserved in Lean so
the embedding calls it `Ty`. The `Punctuated` struct (element, punct) is
inlined into its constructor. -/
inductive Ty where
  | Item (name : String)
  | Std (name : String)
  | Ext (name : String)
  | Token (name : String)
  | Group (name : String)
  | Punctuated (element : Ty) (punct : String)
  | Option (inner : Ty)
  | Box (inner : Ty)
  | Vec (inner : Ty)
  | Tuple (elems : List Ty)

/-- Rust struct `Field { ident, ty }` (types.rs lines 37-42). -/
structure Field where
  ident : String
  ty : Ty

/-- Rust `Field::new` (types.rs line 155). -/
def Field.new (ident : String) (ty : Ty) : Field :=
  ⟨ident, ty⟩

/-- Rust struct `Variant { ident, fields }` (types.rs lines 31-35). -/
structure Variant where
  ident : String
  fields : List Ty

/-- Rust `Variant::new` (types.rs line 141). -/
def Variant.new (ident : String) (fields : List Ty) : Variant :=
  ⟨ident, fields⟩

/-- Rust struct `Struct` (types.rs lines 16-22). -/
structure Struct where
  ident : String
  features : Features
  fields : List Field
  all_fields_pub : Bool

/-- Rust `Struct::new` (types.rs lines 99-111). -/
def Struct.new (ident : String) (features : Features) (fields : List Field)
    (all_fields_pub : Bool) : Struct :=
  ⟨ident, features, fields, all_fields_pub⟩

/-- Rust struct `Enum` (types.rs lines 24-29). -/
structure Enum where
  ident : String
  features : Features
  variants : List Variant

/-- Rust `Enum::new` (types.rs line 127). -/
def Enum.new (ident : String) (features : Features) (variants : List Variant) :
    Enum :=
  ⟨ident, features, variants⟩

/-- Rust enum `Node { Struct(Struct), Enum(Enum) }` (types.rs lines 9-14). -/
inductive Node where
  | Struct (s : Struct)
  | Enum (e : Enum)

/-- Minimal JSON value model, enough to state the serialization shape the
serde attributes in types.rs dictate. -/
inductive Json where
  | str (s : String)
  | bool (b : Bool)
  | arr (elems : List Json)
  | obj (fields : List (String × Json))

/-- The lowercased variant name of a `Type` value, per
`#[serde(rename_all = "lowercase")]` on `enum Type` (types.rs line 45). -/
def tyTag : Ty → String
  | .Item _ => "item"
  | .Std _ => "std"
  | .Ext _ => "ext"
  | .Token _ => "token"
  | .Group _ => "group"
  | .Punctuated _ _ => "punctuated"
  | .Option _ => "option"
  | .Box _ => "box"
  | .Vec _ => "vec"
  | .Tuple _ => "tuple"

mutual

/-- Serialization of `Type` derived by serde from
`#[derive(Serialize)] #[serde(rename_all = "lowercase")]` (types.rs lines
44-69): externally tagged, one object field per value whose key is the
lowercased variant name; the `Punctuated` payload struct serializes its
`element` and `punct` fields in declaration order. -/
def serializeTy : Ty → Json
  | .Item name => Json.obj [("item", Json.str name)]
  | .Std name => Json.obj [("std", Json.str name)]
  | .Ext name => Json.obj [("ext", Json.str name)]
  | .Token name => Json.obj [("token", Json.str name)]
  | .Group name => Json.obj [("group", Json.str name)]
  | .Punctuated element punct =>
      Json.obj [("punctuated",
        Json.obj [("element", serializeTy element), ("punct", Json.str punct)])]
  | .Option inner => Json.obj [("option", serializeTy inner)]
  | .Box inner => Json.obj [("box", serializeTy inner)]
  | .Vec inner => Json.obj [("vec", serializeTy inner)]
  | .Tuple elems => Json.obj [("tuple", Json.arr (serializeTyList elems))]

/-- Element-wise serialization of a sequence of `Type` values. -/
def serializeTyList : List Ty → List Json
  | [] => []
  | t :: ts => serializeTy t :: serializeTyList ts

end

/-- Serde-derived serialization of `Features` (types.rs line 77). -/
def serializeFeatures (f : Features) : Json :=
  Json.obj [("any", Json.arr (f.any.map Json.str))]

/-- Serde-derived serialization of `Field` (types.rs lines 37-42): the
`ty` field carries `#[serde(rename = "type")]`, so it serializes under the
key "type". -/
def serializeField (f : Field) : Json :=
  Json.obj [("ident", Json.str f.ident), ("type", serializeTy f.ty)]

/-- Serde-derived serialization of `Variant` (types.rs lines 31-35). -/
def serializeVariant (v : Variant) : Json :=
  Json.obj [("ident", Json.str v.ident),
    ("fields", Json.arr (v.fields.map serializeTy))]

/-- The fields of a serialized `Struct` (types.rs lines 16-22), in
declaration order. -/
def serializeStructFields (s : Struct) : List (String × Json) :=
  [("ident", Json.str s.ident),
   ("features", serializeFeatures s.features),
   ("fields", Json.arr (s.fields.map serializeField)),
   ("all_fields_pub", Json.bool s.all_fields_pub)]

/-- The fields of a serialized `Enum` (types.rs lines 24-29), in
declaration order. -/
def serializeEnumFields (e : Enum) : List (String × Json) :=
  [("ident", Json.str e.ident),
   ("features", serializeFeatures e.features),
   ("variants", Json.arr (e.variants.map serializeVariant))]

/-- Serde-derived serialization of `Node`, per
`#[serde(tag = "node", rename_all = "lowercase")]` (types.rs line 10):
internally tagged, so the object starts with a discriminator field named
"node" whose value is the lowercased variant name, followed by the inner
struct's own fields. -/
def serializeNode : Node → Json
  | .Struct s => Json.obj (("node", Json.str "struct") :: serializeStructFields s)
  | .Enum e => Json.obj (("node", Json.str "enum") :: serializeEnumFields e)

/-! Helper lemmas shared by the claim theorems. -/

/-- The `all`-over-`Vec::contains` check of `Features::join` is exactly the
subset condition between the underlying flag lists. -/
theorem all_contains_eq_subset (l m : List String) :
    (l.all (fun f => m.contains f) = true) ↔ ∀ f ∈ l, f ∈ m := by
  simp only [List.all_eq_true]
  constructor
  · intro h f hf
    exact List.elem_iff.mp (h f hf)
  · intro h f hf
    exact List.elem_iff.mpr (h f hf)

/-- A duplicate-free list contained in another is at most as long. -/
theorem nodup_subset_length_le {A B : List String} (hA : A.Nodup)
    (hsub : ∀ f ∈ A, f ∈ B) : A.length ≤ B.length :=
  calc A.length = A.toFinset.card := (List.toFinset_card_of_nodup hA).symm
    _ ≤ B.toFinset.card :=
        Finset.card_le_card fun x hx =>
          List.mem_toFinset.mpr (hsub x (List.mem_toFinset.mp hx))
    _ ≤ B.length := List.toFinset_card_le B

/-- A duplicate-free list contained in a list that is no longer than it
contains that list back: the two have the same elements. -/
theorem nodup_subset_eq_length_mem {A B : List String} (hA : A.Nodup)
    (hsub : ∀ f ∈ A, f ∈ B) (hlen : B.length ≤ A.length) :
    ∀ f ∈ B, f ∈ A := by
  have hfs : A.toFinset = B.toFinset := by
    apply Finset.eq_of_subset_of_card_le
    · intro x hx
      exact List.mem_toFinset.mpr (hsub x (List.mem_toFinset.mp hx))
    · calc B.toFinset.card ≤ B.length := List.toFinset_card_le B
        _ ≤ A.length := hlen
        _ = A.toFinset.card := (List.toFinset_card_of_nodup hA).symm
  intro f hf
  have : f ∈ B.toFinset := List.mem_toFinset.mpr hf
  rw [← hfs] at this
  exact List.mem_toFinset.mp this

/-! The claim theorems. -/

/-- C2: for every `Features` A with zero flags and every `Features` B,
`A.join(B)` succeeds and leaves A holding exactly B's flag sequence,
element for element, in B's original order. -/
theorem C2_join_empty_receiver_adopts_other (B : Features) :
    Features.join (Features.new []) B = some (Features.new B.any) :=
  rfl

/-- C3: for `Features` A with flags ["x","y"] and B with flags ["x","z"]
(incomparable sets), `A.join(B)` hits the failed `assert!` — the fatal
invariant violation, modelled as `none` — rather than returning a value. -/
theorem C3_join_incomparable_is_fatal :
    Features.join (Features.new ["x", "y"]) (Features.new ["x", "z"]) = none := by
  decide

/-- C5: for every non-empty `Features` A, `A.join(B)` with B empty succeeds
(the empty set is vacuously contained in A) and leaves A with zero flags. -/
theorem C5_join_with_unconditional_erases (A : Features) (h : A.any ≠ []) :
    Features.join A (Features.new []) = some (Features.new []) := by
  have he : A.any.isEmpty = false := List.isEmpty_eq_false.mpr h
  simp [Features.join, Features.new, he]

/-- Witness for C5 at A = ⟨["x"]⟩. -/
theorem C5_join_with_unconditional_erases_witness :
    Features.join (Features.new ["x"]) (Features.new []) =
      some (Features.new []) :=
  C5_join_with_unconditional_erases (Features.new ["x"]) (by decide)

/-- C7: indexed access `F[i]` with `i < F.len()` returns the flag stored at
position i; any out-of-range access (in particular index 0 on an empty
`Features`) is fatal — modelled as `none`, never a silently returned
default. -/
theorem C7_index_spec (F : Features) (i : Nat) :
    (∀ h : i < F.any.length, F.index i = some (F.any.get ⟨i, h⟩)) ∧
    (F.any.length ≤ i → F.index i = none) :=
  ⟨fun h => List.get?_eq_get h, fun h => List.get?_eq_none.mpr h⟩

/-- C8: after `Features::new(flags)`, `contains f` is true exactly for the
flags f appearing anywhere in the given sequence — set membership by linear
scan, independent of position. -/
theorem C8_contains_iff_mem (flags : List String) (f : String) :
    (Features.new flags).contains f = true ↔ f ∈ flags := by
  simp [Features.contains, Features.new, List.any_eq_true]

/-- C10: construction followed by read-back is the identity: a `Struct`
built by `Struct::new` returns the given fields (in order), features and
all-fields-public flag through its accessors, and an `Enum` built by
`Enum::new` returns the given variants in order with each variant's
payload-type count preserved. -/
theorem C10_construction_roundtrip :
    (∀ (i : String) (fe : Features) (fl : List Field) (p : Bool),
        (Struct.new i fe fl p).fields = fl ∧
        (Struct.new i fe fl p).features = fe ∧
        (Struct.new i fe fl p).all_fields_pub = p) ∧
    (∀ (i : String) (fe : Features) (vs : List Variant),
        (Enum.new i fe vs).variants = vs ∧
        ((Enum.new i fe vs).variants.map fun v => v.fields.length) =
          (vs.map fun v => v.fields.length)) :=
  ⟨fun _ _ _ _ => ⟨rfl, rfl, rfl⟩, fun _ _ _ => ⟨rfl, rfl⟩⟩

/-- C1 counterexample: at A = ⟨["x"]⟩, B = ⟨["x","y"]⟩ the subset A ⊆ B
holds and both joins succeed, yet `A.join(B)` leaves the receiver with
["x"], whose flag set does not contain all of B's flags — so the result is
the smaller set, not B's (the larger) as the claim states. -/
theorem C1_counterexample_smaller_kept :
    (∀ f ∈ (Features.new ["x"]).any, f ∈ (Features.new ["x", "y"]).any) ∧
    Features.join (Features.new ["x"]) (Features.new ["x", "y"]) =
      some (Features.new ["x"]) ∧
    ¬ (∀ f ∈ (Features.new ["x", "y"]).any,
        f ∈ ((Features.join (Features.new ["x"])
              (Features.new ["x", "y"])).getD (Features.new [])).any) := by
  decide

/-- C1 (amended): for duplicate-free A with A's flag set ⊆ B's flag set,
both joins terminate without a fatal error, but the receiver ends with the
SMALLER set: `B.join(A)` leaves exactly A's flags, and `A.join(B)` leaves a
flag set equal to A's — except that an empty A adopts B's flags wholesale. -/
theorem C1_join_nested_keeps_smaller (A B : Features)
    (hA : A.any.Nodup) (hsub : ∀ f ∈ A.any, f ∈ B.any) :
    Features.join B A = some (Features.new A.any) ∧
    ∃ r, Features.join A B = some r ∧
      (A.any = [] → r.any = B.any) ∧
      (A.any ≠ [] → ∀ f, f ∈ r.any ↔ f ∈ A.any) := by
  have hlen : A.any.length ≤ B.any.length := nodup_subset_length_le hA hsub
  constructor
  · by_cases hBe : B.any = []
    · simp [Features.join, hBe, Features.new]
    · have h1 : B.any.isEmpty = false := List.isEmpty_eq_false.mpr hBe
      have h2 : ¬ (B.any.length < A.any.length) := Nat.not_lt.mpr hlen
      simp [Features.join, h1, h2, Features.new]
      exact hsub
  · by_cases hAe : A.any = []
    · refine ⟨Features.new B.any, ?_, fun _ => rfl, fun h => absurd hAe h⟩
      simp [Features.join, hAe, Features.new]
    · have h1 : A.any.isEmpty = false := List.isEmpty_eq_false.mpr hAe
      by_cases hlt : A.any.length < B.any.length
      · refine ⟨A, ?_, fun h => absurd h hAe, fun _ f => Iff.rfl⟩
        simp [Features.join, h1, hlt]
        exact hsub
      · have hba : ∀ f ∈ B.any, f ∈ A.any :=
          nodup_subset_eq_length_mem hA hsub (Nat.not_lt.mp hlt)
        refine ⟨Features.new B.any, ?_, fun h => absurd h hAe, ?_⟩
        · simp [Features.join, h1, hlt, Features.new]
          exact hba
        · intro _ f
          exact ⟨fun hf => hba f hf, fun hf => hsub f hf⟩

/-- Witness for C1 at A = ⟨["x"]⟩, B = ⟨["x","y"]⟩. -/
theorem C1_join_nested_keeps_smaller_witness :
    Features.join (Features.new ["x", "y"]) (Features.new ["x"]) =
      some (Features.new ["x"]) ∧
    ∃ r, Features.join (Features.new ["x"]) (Features.new ["x", "y"]) = some r ∧
      ((Features.new ["x"]).any = [] → r.any = (Features.new ["x", "y"]).any) ∧
      ((Features.new ["x"]).any ≠ [] →
        ∀ f, f ∈ r.any ↔ f ∈ (Features.new ["x"]).any) :=
  C1_join_nested_keeps_smaller (Features.new ["x"]) (Features.new ["x", "y"])
    (by decide) (by decide)

/-- C4 counterexample: self = ⟨["x","y"]⟩ and other = ⟨["x","x"]⟩ have equal
flag counts and self is non-empty, every flag of other is in self but "y" of
self is not in other — the claim demands a fatal failure, yet `join`
succeeds and the receiver takes other's flags: only one containment
direction is checked. -/
theorem C4_counterexample_one_direction_only :
    (Features.new ["x", "y"]).any ≠ [] ∧
    (Features.new ["x", "y"]).any.length = (Features.new ["x", "x"]).any.length ∧
    ¬ (∀ f ∈ (Features.new ["x", "y"]).any, f ∈ (Features.new ["x", "x"]).any) ∧
    Features.join (Features.new ["x", "y"]) (Features.new ["x", "x"]) =
      some (Features.new ["x", "x"]) := by
  decide

/-- C4 (amended): for non-empty self with `self.len() == other.len()`,
`join` asserts only that every flag of OTHER is contained in SELF, failing
fatally exactly when that single check fails, and on success the receiver
holds other's flags; when both flag lists are duplicate-free that one check
does force the two sets to be identical. -/
theorem C4_join_equal_len_one_sided_check (self other : Features)
    (h1 : self.any ≠ []) (h2 : self.any.length = other.any.length) :
    ((∀ f ∈ other.any, f ∈ self.any) →
        Features.join self other = some (Features.new other.any)) ∧
    ((¬ ∀ f ∈ other.any, f ∈ self.any) → Features.join self other = none) ∧
    (self.any.Nodup → other.any.Nodup → (∀ f ∈ other.any, f ∈ self.any) →
        ∀ f ∈ self.any, f ∈ other.any) := by
  have he : self.any.isEmpty = false := List.isEmpty_eq_false.mpr h1
  have hnlt : ¬ (self.any.length < other.any.length) := by omega
  refine ⟨?_, ?_, ?_⟩
  · intro hos
    simp [Features.join, he, hnlt, Features.new]
    exact hos
  · intro hos
    simp [Features.join, he, hnlt]
    push_neg at hos
    exact hos
  · intro _ hnodup2 hos
    exact nodup_subset_eq_length_mem hnodup2 hos (le_of_eq h2)

/-- Witness for C4 at self = ⟨["x","y"]⟩, other = ⟨["y","x"]⟩. -/
theorem C4_join_equal_len_one_sided_check_witness :
    ((∀ f ∈ (Features.new ["y", "x"]).any, f ∈ (Features.new ["x", "y"]).any) →
        Features.join (Features.new ["x", "y"]) (Features.new ["y", "x"]) =
          some (Features.new (Features.new ["y", "x"]).any)) ∧
    ((¬ ∀ f ∈ (Features.new ["y", "x"]).any, f ∈ (Features.new ["x", "y"]).any) →
        Features.join (Features.new ["x", "y"]) (Features.new ["y", "x"]) = none) ∧
    ((Features.new ["x", "y"]).any.Nodup → (Features.new ["y", "x"]).any.Nodup →
      (∀ f ∈ (Features.new ["y", "x"]).any, f ∈ (Features.new ["x", "y"]).any) →
        ∀ f ∈ (Features.new ["x", "y"]).any, f ∈ (Features.new ["y", "x"]).any) :=
  C4_join_equal_len_one_sided_check (Features.new ["x", "y"])
    (Features.new ["y", "x"]) (by decide) (by decide)

/-- C6: whenever `self.join(other)` completes without a fatal error, the
receiver afterwards holds either its own original flag list or an exact
clone of other's, and in every case its flag set is contained in other's
flag set. -/
theorem C6_join_result_within_other (self other r : Features)
    (h : Features.join self other = some r) :
    (r.any = self.any ∨ r.any = other.any) ∧ ∀ f ∈ r.any, f ∈ other.any := by
  unfold Features.join at h
  by_cases h1 : self.any.isEmpty = true
  · rw [if_pos h1] at h
    obtain rfl := Option.some.inj h
    exact ⟨Or.inr rfl, fun f hf => hf⟩
  · rw [if_neg h1] at h
    by_cases h2 : self.any.length < other.any.length
    · rw [if_pos h2] at h
      by_cases h3 : self.any.all (fun f => other.any.contains f) = true
      · rw [if_pos h3] at h
        obtain rfl := Option.some.inj h
        exact ⟨Or.inl rfl, (all_contains_eq_subset _ _).mp h3⟩
      · rw [if_neg h3] at h
        exact absurd h (by simp)
    · rw [if_neg h2] at h
      by_cases h3 : other.any.all (fun f => self.any.contains f) = true
      · rw [if_pos h3] at h
        obtain rfl := Option.some.inj h
        exact ⟨Or.inr rfl, fun f hf => hf⟩
      · rw [if_neg h3] at h
        exact absurd h (by simp)

/-- Witness for C6 at self = ⟨["x"]⟩, other = ⟨["x","y"]⟩, r = ⟨["x"]⟩. -/
theorem C6_join_result_within_other_witness :
    ((Features.new ["x"]).any = (Features.new ["x"]).any ∨
      (Features.new ["x"]).any = (Features.new ["x", "y"]).any) ∧
    ∀ f ∈ (Features.new ["x"]).any, f ∈ (Features.new ["x", "y"]).any :=
  C6_join_result_within_other (Features.new ["x"]) (Features.new ["x", "y"])
    (Features.new ["x"]) (by decide)

/-- C9: every `Node` serializes as a tagged union whose discriminator field
is named "node" with lower-cased value "struct" or "enum"; every `Type`
serializes under a lower-cased per-variant discriminator drawn from item,
std, ext, token, group, punctuated, option, box, vec, tuple; and a `Field`'s
type component serializes under the key "type", not "ty". -/
theorem C9_serialization_tags :
    (∀ n : Node, ∃ tag rest,
        serializeNode n = Json.obj (("node", Json.str tag) :: rest) ∧
        (tag = "struct" ∨ tag = "enum")) ∧
    (∀ t : Ty, ∃ c, serializeTy t = Json.obj [(tyTag t, c)] ∧
        tyTag t ∈ ["item", "std", "ext", "token", "group", "punctuated",
          "option", "box", "vec", "tuple"]) ∧
    (∀ f : Field, serializeField f =
        Json.obj [("ident", Json.str f.ident), ("type", serializeTy f.ty)]) := by
  refine ⟨?_, ?_, ?_⟩
  · intro n
    cases n with
    | Struct s => exact ⟨"struct", serializeStructFields s, rfl, Or.inl rfl⟩
    | Enum e => exact ⟨"enum", serializeEnumFields e, rfl, Or.inr rfl⟩
  · intro t
    cases t with
    | Item name => exact ⟨Json.str name, by simp [serializeTy, tyTag], by simp [tyTag]⟩
    | Std name => exact ⟨Json.str name, by simp [serializeTy, tyTag], by simp [tyTag]⟩
    | Ext name => exact ⟨Json.str name, by simp [serializeTy, tyTag], by simp [tyTag]⟩
    | Token name => exact ⟨Json.str name, by simp [serializeTy, tyTag], by simp [tyTag]⟩
    | Group name => exact ⟨Json.str name, by simp [serializeTy, tyTag], by simp [tyTag]⟩
    | Punctuated element punct =>
        exact ⟨Json.obj [("element", serializeTy element), ("punct", Json.str punct)],
          by simp [serializeTy, tyTag], by simp [tyTag]⟩
    | Option inner => exact ⟨serializeTy inner, by simp [serializeTy, tyTag], by simp [tyTag]⟩
    | Box inner => exact ⟨serializeTy inner, by simp [serializeTy, tyTag], by simp [tyTag]⟩
    | Vec inner => exact ⟨serializeTy inner, by simp [serializeTy, tyTag], by simp [tyTag]⟩
    | Tuple elems =>
        exact ⟨Json.arr (serializeTyList elems), by simp [serializeTy, tyTag],
          by simp [tyTag]⟩
  · intro f
    rfl

end Codegen
